import Mathlib

/-!
Verification of the macaroon sidecar core: the zone/output state reconciler
(src/sidecar/src/roon/transport.ts), the artwork LRU/TTL cache and the
timeout-guarded artwork fetch (src/sidecar/src/roon/image.ts), the pairing
lifecycle handler (src/sidecar/src/roon/client.ts), and the line-delimited
JSON output protocol (the output module, src/unnamed/part_000).

The embedding is shallow: each TypeScript function becomes a pure Lean
function; the mutable zone/output maps and the cache become explicit state
threaded through the functions; JavaScript Map iteration/insertion-order
semantics are modelled by association lists (Map.set on an existing key
updates the value in place, preserving order; the LRU code moves an entry
to the back by an explicit delete followed by a set, exactly as the source
does).  JavaScript exceptions are modelled by an Option String error
component; a null element inside a payload list (possible for the
duck-typed callback data) is modelled by an Option element, and reading a
field of null raises.  Timestamps are Nat milliseconds.
-/

set_option autoImplicit false

/-- Playback metadata attached to an entry of a zone_list message
(the now_playing object of output.ts ZoneInfo; the artwork field is never
populated by emitCurrentZoneList, so it is not modelled). -/
structure NPMeta where
  title : String
  artist : String
  album : String
deriving DecidableEq, Repr

/-- One entry of a zone_list message (output.ts ZoneInfo). -/
structure ZoneInfo where
  zone_id : String
  display_name : String
  state : String
  now_playing : Option NPMeta
deriving DecidableEq, Repr

/-- A message of the line-delimited JSON output protocol (output.ts
SidecarOutput).  The playback state of a now_playing message is an Option
because JavaScript lets a call site omit the argument (undefined), in which
case JSON.stringify drops the field. -/
inductive Msg where
  | nowPlaying (zone_id : String) (title : String) (artist : String)
      (album : String) (state : Option String) (artwork : Option String)
  | zoneList (zones : List ZoneInfo)
  | statusMsg (state : String) (message : Option String)
  | errorMsg (message : String)
deriving DecidableEq, Repr

/-- True exactly on now_playing messages. -/
def isNowPlayingMsg : Msg → Bool
  | Msg.nowPlaying _ _ _ _ _ _ => true
  | _ => false

/-- True exactly on zone_list messages. -/
def isZoneListMsg : Msg → Bool
  | Msg.zoneList _ => true
  | _ => false

/-- Now-playing payload of a zone as delivered by the subscription
(transport.ts NowPlayingData); the three display shapes are mutually
optional, each line a String (the defensive line1-or-empty-string in the
source is the identity on strings). -/
structure NowPlayingData where
  image_key : Option String
  one_line : Option String
  two_line : Option (String × String)
  three_line : Option (String × String × String)
deriving DecidableEq, Repr

/-- A zone record (transport.ts Zone).  The outputs field is modelled by
the list of output_id strings of its output objects (an absent output_id is
the empty string, which the source treats as falsy). -/
structure Zone where
  zone_id : String
  display_name : String
  outputs : List String
  now_playing : Option NowPlayingData
  state : Option String
deriving DecidableEq, Repr

/-- An output record (transport.ts Output); only the fields the reconciler
reads are modelled. -/
structure Output where
  output_id : String
  display_name : String
deriving DecidableEq, Repr

/-- Payload of a zone subscription burst (transport.ts ZonesData).  List
elements are Option to model possibly-null entries of the duck-typed
payload. -/
structure ZonesData where
  zones : Option (List (Option Zone))
  zones_changed : Option (List (Option Zone))
  zones_removed : Option (List String)
  zones_seek_changed : Option (List Unit)
deriving DecidableEq, Repr

/-- Payload of an output subscription burst (transport.ts OutputsData). -/
structure OutputsData where
  outputs : Option (List (Option Output))
  outputs_changed : Option (List (Option Output))
  outputs_removed : Option (List String)
deriving DecidableEq, Repr

/-- The reconciler state: the allZones and allOutputs maps of
TransportManager, as association lists in Map insertion order (keys are the
zone_id / output_id fields of the stored records). -/
structure TState where
  zones : List Zone
  outputs : List Output
deriving DecidableEq, Repr

/-- Map.set for the zone map: replace in place the entry with the same
zone_id (JavaScript Map.set keeps the original position of an existing
key), otherwise append. -/
def zsSet (z : Zone) : List Zone → List Zone
  | [] => [z]
  | w :: rest => if w.zone_id = z.zone_id then z :: rest else w :: zsSet z rest

/-- Map.delete for the zone map. -/
def zsDelete (zid : String) (l : List Zone) : List Zone :=
  l.filter (fun w => decide (w.zone_id ≠ zid))

/-- Map.set for the output map. -/
def osSet (o : Output) : List Output → List Output
  | [] => [o]
  | w :: rest => if w.output_id = o.output_id then o :: rest else w :: osSet o rest

/-- Map.delete for the output map. -/
def osDelete (oid : String) (l : List Output) : List Output :=
  l.filter (fun w => decide (w.output_id ≠ oid))

/-- mapRoonStateToPlaybackState of transport.ts: total state
normalization, anything unknown becomes stopped. -/
def mapRoonStateToPlaybackState (state : String) : String :=
  if state = "playing" then "playing"
  else if state = "paused" then "paused"
  else if state = "loading" then "loading"
  else "stopped"

/-- The zone-state-or-stopped default the source writes as
zone.state || 'stopped' (undefined and the empty string are falsy). -/
def stateEff (z : Zone) : String :=
  match z.state with
  | some s => if s = "" then "stopped" else s
  | none => "stopped"

/-- extractMetadata of transport.ts: first matching shape wins, no merging
across shapes. -/
def extractMetadata (np : NowPlayingData) : String × String × String :=
  match np.three_line with
  | some t => (t.1, t.2.1, t.2.2)
  | none =>
    match np.two_line with
    | some t => (t.1, t.2, "")
    | none =>
      match np.one_line with
      | some l => (l, "", "")
      | none => ("", "", "")

/-- The ZoneInfo entry emitCurrentZoneList builds for one zone map value. -/
def zoneEntryOf (z : Zone) : ZoneInfo :=
  let st := mapRoonStateToPlaybackState (stateEff z)
  ⟨z.zone_id, z.display_name, st,
    match z.now_playing with
    | some np =>
      if st = "playing" ∨ st = "paused" then
        some ⟨(extractMetadata np).1, (extractMetadata np).2.1, (extractMetadata np).2.2⟩
      else none
    | none => none⟩

/-- The zoneOutputIds set of emitCurrentZoneList: every output_id
referenced by some zone map value's output list (a falsy, i.e. empty,
output_id is skipped). -/
def referencedIds (s : TState) : List String :=
  s.zones.flatMap (fun z => z.outputs.filter (fun oid => decide (oid ≠ "")))

/-- The synthetic inactive-output entries of emitCurrentZoneList: one per
output map value whose output_id is not referenced by any zone, with the
literal prefix on the id, the display-name suffix, state stopped and no
now_playing. -/
def syntheticEntries (s : TState) : List ZoneInfo :=
  (s.outputs.filter (fun o => decide (o.output_id ∉ referencedIds s))).map
    (fun o => ⟨"output:" ++ o.output_id, o.display_name ++ " (Inactive)", "stopped", none⟩)

/-- The full zone list snapshot emitCurrentZoneList computes: zone map
entries in insertion order followed by the synthetic entries. -/
def currentZoneList (s : TState) : List ZoneInfo :=
  s.zones.map zoneEntryOf ++ syntheticEntries s

/-- The emission of emitCurrentZoneList: one zone_list message when the
snapshot is non-empty, nothing otherwise. -/
def emitCurrentZoneList (s : TState) : List Msg :=
  if (currentZoneList s).length > 0 then [Msg.zoneList (currentZoneList s)] else []

/-- The playingZones filter of handleZonesUpdate: exact string comparison
of the raw zone state against playing and paused. -/
def isActiveZone (z : Zone) : Bool :=
  decide (z.state = some "playing") || decide (z.state = some "paused")

/-- extractAndEmitNowPlaying of transport.ts, as the single now_playing
message it emits for one zone.  The artwork resolver fa abstracts
imageManager.fetchArtwork (consulted only for a truthy image_key). -/
def extractAndEmitNowPlaying (fa : String → Option String) (z : Zone) : Msg :=
  let st := stateEff z
  match z.now_playing with
  | none => Msg.nowPlaying z.zone_id "" "" "" (some "stopped") none
  | some np =>
    if st = "stopped" then Msg.nowPlaying z.zone_id "" "" "" (some "stopped") none
    else
      let m := extractMetadata np
      let art :=
        match np.image_key with
        | some k => if k = "" then none else fa k
        | none => none
      Msg.nowPlaying z.zone_id m.1 m.2.1 m.2.2 (some (mapRoonStateToPlaybackState st)) art

/-- The zones.forEach upsert loop: entries are written into the map in
order; a null element raises on the read of its zone_id, keeping the
mutations already applied. -/
def upsertZones : List (Option Zone) → List Zone → List Zone × Option String
  | [], m => (m, none)
  | none :: _, m => (m, some "TypeError: null zone in zones list")
  | some z :: rest, m => upsertZones rest (zsSet z m)

/-- The outputs.forEach upsert loop, symmetric to the zone one. -/
def upsertOutputs : List (Option Output) → List Output → List Output × Option String
  | [], m => (m, none)
  | none :: _, m => (m, some "TypeError: null output in outputs list")
  | some o :: rest, m => upsertOutputs rest (osSet o m)

/-- The seek-only early-return guard of handleZonesUpdate: a non-empty
zones_seek_changed while both zones and zones_changed are absent (an array
value, even empty, is truthy). -/
def seekOnlyGuard (d : ZonesData) : Bool :=
  (match d.zones_seek_changed with
   | some l => decide (l.length > 0)
   | none => false)
  && (match d.zones with | some _ => false | none => true)
  && (match d.zones_changed with | some _ => false | none => true)

/-- The effective upsert list of handleZonesUpdate:
data.zones || data.zones_changed || [] (an array value, even empty, is
truthy, so a present zones field always wins). -/
def effectiveZones (d : ZonesData) : List (Option Zone) :=
  match d.zones with
  | some l => l
  | none =>
    match d.zones_changed with
    | some l => l
    | none => []

/-- The effective upsert list of handleOutputsUpdate:
data.outputs || data.outputs_changed || []. -/
def effectiveOutputs (d : OutputsData) : List (Option Output) :=
  match d.outputs with
  | some l => l
  | none =>
    match d.outputs_changed with
    | some l => l
    | none => []

/-- Body of handleZonesUpdate of transport.ts before its try/catch:
seek-only bursts return untouched; a non-empty zones_removed list deletes
ids and immediately emits the zone list; a non-empty effective upsert list
updates the map, emits the zone list again, and then emits one now_playing
message per playing or paused zone of the burst.  Returns the new state,
the emitted messages in order, and the uncaught error, if one was
raised. -/
def handleZonesUpdateImpl (fa : String → Option String) (d : ZonesData)
    (s : TState) : TState × List Msg × Option String :=
  if seekOnlyGuard d then (s, [], none) else
  let p1 : TState × List Msg :=
    match d.zones_removed with
    | some rem =>
      if rem.length > 0 then
        let s1 : TState := ⟨rem.foldl (fun m zid => zsDelete zid m) s.zones, s.outputs⟩
        (s1, emitCurrentZoneList s1)
      else (s, [])
    | none => (s, [])
  let eff := effectiveZones d
  if eff.length = 0 then (p1.1, p1.2, none) else
  let up := upsertZones eff p1.1.zones
  let s2 : TState := ⟨up.1, p1.1.outputs⟩
  match up.2 with
  | some e => (s2, p1.2, some e)
  | none =>
    let npMsgs := ((eff.filterMap id).filter isActiveZone).map (extractAndEmitNowPlaying fa)
    (s2, p1.2 ++ emitCurrentZoneList s2 ++ npMsgs, none)

/-- handleZonesUpdate of transport.ts: the whole body runs inside
try/catch, so a raised error is logged to stderr and never propagates. -/
def handleZonesUpdate (fa : String → Option String) (d : ZonesData)
    (s : TState) : TState × List Msg × Option String :=
  let r := handleZonesUpdateImpl fa d s
  (r.1, r.2.1, none)

/-- handleOutputsUpdate of transport.ts: removals, then the upsert loop,
then one unconditional emitCurrentZoneList.  There is no try/catch around
this body, so a raised error propagates to the subscription callback. -/
def handleOutputsUpdate (d : OutputsData) (s : TState) :
    TState × List Msg × Option String :=
  let om1 :=
    match d.outputs_removed with
    | some rem =>
      if rem.length > 0 then rem.foldl (fun m oid => osDelete oid m) s.outputs
      else s.outputs
    | none => s.outputs
  let up := upsertOutputs (effectiveOutputs d) om1
  let s2 : TState := ⟨s.zones, up.1⟩
  match up.2 with
  | some e => (s2, [], some e)
  | none => (s2, emitCurrentZoneList s2, none)

/-- A cached artwork value with its insertion timestamp (image.ts
CacheEntry). -/
structure CacheEntry (V : Type) where
  value : V
  timestamp : Nat
deriving DecidableEq, Repr

/-- The LRU cache of image.ts: entries in Map insertion order (front =
least recently used), a capacity bound and a TTL in milliseconds. -/
structure LRUCache (K V : Type) where
  entries : List (K × CacheEntry V)
  maxSize : Nat
  ttlMs : Nat
deriving DecidableEq, Repr

/-- Map.delete of the key inside the backing map of the cache. -/
def cacheErase {K V : Type} [DecidableEq K] (k : K)
    (l : List (K × CacheEntry V)) : List (K × CacheEntry V) :=
  l.filter (fun p => !(decide (p.1 = k)))

/-- LRUCache.get of image.ts: a missing key returns nothing; an entry
older than the TTL is deleted and reported absent; a fresh entry is moved
to the back by delete-then-set, keeping its original timestamp. -/
def LRUCache.get {K V : Type} [DecidableEq K] (c : LRUCache K V) (k : K)
    (now : Nat) : Option V × LRUCache K V :=
  match c.entries.find? (fun p => decide (p.1 = k)) with
  | none => (none, c)
  | some p =>
    if now - p.2.timestamp > c.ttlMs then
      (none, ⟨cacheErase k c.entries, c.maxSize, c.ttlMs⟩)
    else
      (some p.2.value, ⟨cacheErase k c.entries ++ [(k, p.2)], c.maxSize, c.ttlMs⟩)

/-- LRUCache.set of image.ts: an existing key is deleted first (to be
re-appended at the back); otherwise, at capacity, the first (oldest) entry
is deleted; then the new entry is appended with the current timestamp. -/
def LRUCache.set {K V : Type} [DecidableEq K] (c : LRUCache K V) (k : K)
    (v : V) (now : Nat) : LRUCache K V :=
  let base :=
    if c.entries.any (fun p => decide (p.1 = k)) then cacheErase k c.entries
    else if c.entries.length ≥ c.maxSize then c.entries.tail
    else c.entries
  ⟨base ++ [(k, ⟨v, now⟩)], c.maxSize, c.ttlMs⟩

/-- LRUCache.has of image.ts: like get but without the recency move; an
expired entry is deleted and reported absent. -/
def LRUCache.has {K V : Type} [DecidableEq K] (c : LRUCache K V) (k : K)
    (now : Nat) : Bool × LRUCache K V :=
  match c.entries.find? (fun p => decide (p.1 = k)) with
  | none => (false, c)
  | some p =>
    if now - p.2.timestamp > c.ttlMs then
      (false, ⟨cacheErase k c.entries, c.maxSize, c.ttlMs⟩)
    else (true, c)

/-- LRUCache.clear of image.ts. -/
def LRUCache.clear {K V : Type} (c : LRUCache K V) : LRUCache K V :=
  ⟨[], c.maxSize, c.ttlMs⟩

/-- The size accessor of the cache. -/
def LRUCache.size {K V : Type} (c : LRUCache K V) : Nat :=
  c.entries.length

/-- MAX_CACHE_SIZE of image.ts. -/
def MAX_CACHE_SIZE : Nat := 100

/-- CACHE_TTL_MS of image.ts (one hour). -/
def CACHE_TTL_MS : Nat := 60 * 60 * 1000

/-- IMAGE_FETCH_TIMEOUT_MS of image.ts (ten seconds). -/
def IMAGE_FETCH_TIMEOUT_MS : Nat := 10000

/-- The artwork cache of a fresh ImageManager. -/
def emptyArtworkCache : LRUCache String String := ⟨[], MAX_CACHE_SIZE, CACHE_TTL_MS⟩

/-- One cache operation, for stating reachability invariants. -/
inductive CacheOp (K V : Type) where
  | get (k : K) (now : Nat)
  | set (k : K) (v : V) (now : Nat)
  | has (k : K) (now : Nat)
  | clear
deriving Repr

/-- Apply one cache operation to the cache state. -/
def applyOp {K V : Type} [DecidableEq K] (c : LRUCache K V) :
    CacheOp K V → LRUCache K V
  | CacheOp.get k now => (c.get k now).2
  | CacheOp.set k v now => c.set k v now
  | CacheOp.has k now => (c.has k now).2
  | CacheOp.clear => c.clear

/-- Run a sequence of cache operations. -/
def runOps {K V : Type} [DecidableEq K] (c : LRUCache K V)
    (ops : List (CacheOp K V)) : LRUCache K V :=
  ops.foldl applyOp c

/-- An event observable by the promise of getImageAsDataUrl: the deadline
timer firing, or the image collaborator invoking its callback (the body is
modelled by its base64 text; the collaborator-reported content type is
absent or possibly empty). -/
inductive FetchEvent where
  | timeout
  | response (error : Option String) (contentType : Option String) (base64Body : String)
deriving DecidableEq, Repr

/-- Outcome of the promise of getImageAsDataUrl. -/
inductive FetchResult where
  | ok (url : String)
  | err (msg : String)
deriving DecidableEq, Repr

/-- State of one getImageAsDataUrl promise: whether the timeoutId is still
non-null, the settle-once result, and instrumentation counting effective
settles and timeoutId null-outs. -/
structure FetchPromiseState where
  timerArmed : Bool
  settled : Option FetchResult
  settleCount : Nat
  disarmCount : Nat
deriving DecidableEq, Repr

/-- A promise settles only once. -/
def settleOnce (s : Option FetchResult) (r : FetchResult) : Option FetchResult :=
  match s with
  | some x => some x
  | none => some r

/-- The data URL getImageAsDataUrl builds from the collaborator response
(contentType || 'image/jpeg' defaults a falsy content type). -/
def dataUrlOf (contentType : Option String) (base64Body : String) : String :=
  "data:" ++
    (match contentType with
     | some ct => if ct = "" then "image/jpeg" else ct
     | none => "image/jpeg") ++
    ";base64," ++ base64Body

/-- One event step of the getImageAsDataUrl promise.  The timer firing
nulls timeoutId and rejects with a timeout error; a callback finding
timeoutId already null returns immediately (a late response is discarded);
otherwise it clears the timer, nulls timeoutId, and settles with the
collaborator error or the data URL. -/
def fetchStep (s : FetchPromiseState) (e : FetchEvent) : FetchPromiseState :=
  match e with
  | FetchEvent.timeout =>
    if s.timerArmed then
      ⟨false, settleOnce s.settled (FetchResult.err "Image fetch timeout"),
        s.settleCount + 1, s.disarmCount + 1⟩
    else s
  | FetchEvent.response err ct body =>
    if s.timerArmed then
      ⟨false,
        settleOnce s.settled
          (match err with
           | some msg => FetchResult.err msg
           | none => FetchResult.ok (dataUrlOf ct body)),
        s.settleCount + 1, s.disarmCount + 1⟩
    else s

/-- Run the getImageAsDataUrl promise over the sequence of events it
observes, starting with the timer armed and nothing settled. -/
def runFetch (events : List FetchEvent) : FetchPromiseState :=
  events.foldl fetchStep ⟨true, none, 0, 0⟩

/-- Continuation of fetchArtwork after a cache miss: without an image
service the fetch resolves to nothing; otherwise the promise outcome is
awaited, a success is written into the cache and returned, and an error is
caught and resolved to nothing with no cache write. -/
def fetchArtworkMiss (c : LRUCache String String) (k : String) (now : Nat)
    (service : Bool) (events : List FetchEvent) :
    Option String × LRUCache String String :=
  if service then
    match (runFetch events).settled with
    | some (FetchResult.ok url) => (some url, c.set k url now)
    | some (FetchResult.err _) => (none, c)
    | none => (none, c)
  else (none, c)

/-- fetchArtwork of image.ts: a falsy (absent or empty) image key resolves
to nothing immediately; a cache hit with a truthy value resolves to the
cached data URL; otherwise the miss path runs. -/
def fetchArtwork (c : LRUCache String String) (key : Option String)
    (now : Nat) (service : Bool) (events : List FetchEvent) :
    Option String × LRUCache String String :=
  match key with
  | none => (none, c)
  | some k =>
    if k = "" then (none, c)
    else
      let g := c.get k now
      match g.1 with
      | some v => if v = "" then fetchArtworkMiss g.2 k now service events else (some v, g.2)
      | none => fetchArtworkMiss g.2 k now service events

/-- The client state relevant to pairing loss: the reconciler maps and the
artwork cache. -/
structure ClientState where
  transport : TState
  imageCache : LRUCache String String
deriving DecidableEq, Repr

/-- handleCoreUnpaired of client.ts: emits a disconnected status, clears
the transport service (emptying both maps), clears the image service (which
clears the artwork cache), and then calls
output.emitNowPlaying with the four arguments two empty strings, an empty
string and the string stopped — one argument short, so the album parameter
receives the string stopped and the state parameter receives undefined. -/
def handleCoreUnpaired (cs : ClientState) : ClientState × List Msg :=
  (⟨⟨[], []⟩, cs.imageCache.clear⟩,
    [Msg.statusMsg "disconnected" (some "Disconnected from Roon Core"),
     Msg.nowPlaying "" "" "" "stopped" none none])

/-! Helper lemmas about the cache list operations. -/

/-- No entry of the erased list carries the erased key. -/
theorem find?_cacheErase_self {K V : Type} [DecidableEq K] (k : K)
    (l : List (K × CacheEntry V)) :
    (cacheErase k l).find? (fun p => decide (p.1 = k)) = none := by
  apply List.find?_eq_none.mpr
  intro p hp
  rcases List.mem_filter.mp hp with ⟨_, h2⟩
  simpa using h2

/-- Looking up the key of a freshly appended entry after erasing it finds
exactly that entry. -/
theorem find?_cacheErase_append {K V : Type} [DecidableEq K] (k : K)
    (e : CacheEntry V) (l : List (K × CacheEntry V)) :
    ((cacheErase k l) ++ [(k, e)]).find? (fun p => decide (p.1 = k)) = some (k, e) := by
  rw [List.find?_append, find?_cacheErase_self]
  simp [List.find?]

/-- A successful lookup makes the existence check of set succeed. -/
theorem any_of_find?_eq_some {K V : Type} [DecidableEq K] {k : K}
    {e : CacheEntry V} {l : List (K × CacheEntry V)}
    (h : l.find? (fun p => decide (p.1 = k)) = some (k, e)) :
    l.any (fun p => decide (p.1 = k)) = true := by
  exact List.any_eq_true.mpr ⟨(k, e), List.mem_of_find?_eq_some h, by simp⟩

/-! Helper lemmas about the fetch promise. -/

/-- Once the timeoutId is null, every further event is ignored. -/
theorem fetchStep_disarmed (s : FetchPromiseState) (e : FetchEvent)
    (h : s.timerArmed = false) : fetchStep s e = s := by
  cases e <;> simp [fetchStep, h]

/-- Once the timeoutId is null, any tail of events leaves the promise
untouched. -/
theorem foldl_fetchStep_disarmed (rest : List FetchEvent)
    (s : FetchPromiseState) (h : s.timerArmed = false) :
    rest.foldl fetchStep s = s := by
  induction rest with
  | nil => rfl
  | cons e t ih => rw [List.foldl_cons, fetchStep_disarmed s e h]; exact ih

/-- C10: when a zone burst carries both the full zones list and the
zones_changed list, the full list wins and the changed list is ignored
entirely; symmetrically, outputs wins over outputs_changed.  Confirmed:
the handlers produce identical state, messages and error whether or not
the changed list is present. -/
theorem C10_full_list_priority :
    (∀ (fa : String → Option String) (s : TState) (l l' : List (Option Zone))
        (rem : Option (List String)) (sk : Option (List Unit)),
      handleZonesUpdate fa (ZonesData.mk (some l) (some l') rem sk) s
        = handleZonesUpdate fa (ZonesData.mk (some l) none rem sk) s)
    ∧ (∀ (s : TState) (lo lo' : List (Option Output)) (orem : Option (List String)),
      handleOutputsUpdate (OutputsData.mk (some lo) (some lo') orem) s
        = handleOutputsUpdate (OutputsData.mk (some lo) none orem) s) := by
  constructor
  · intro fa s l l' rem sk
    simp [handleZonesUpdate, handleZonesUpdateImpl, seekOnlyGuard, effectiveZones]
  · intro s lo lo' orem
    simp [handleOutputsUpdate, effectiveOutputs]

/-- C2: on pairing loss the code does clear both reconciler maps and the
artwork cache and does emit a disconnected status, but the now-playing
message it emits is malformed: handleCoreUnpaired calls emitNowPlaying
with only four arguments, so the string stopped lands in the album
parameter and the state parameter is undefined (dropped from the JSON),
instead of an empty album and state stopped.  This theorem evaluates the
code at the failing input. -/
theorem C2_code_behavior (cs : ClientState) :
    (handleCoreUnpaired cs).1.transport.zones = []
    ∧ (handleCoreUnpaired cs).1.transport.outputs = []
    ∧ (handleCoreUnpaired cs).1.imageCache.size = 0
    ∧ (handleCoreUnpaired cs).2 =
        [Msg.statusMsg "disconnected" (some "Disconnected from Roon Core"),
         Msg.nowPlaying "" "" "" "stopped" none none] :=
  ⟨rfl, rfl, rfl, rfl⟩

/-- C4 counterexample: a cache hit does not reset the entry timestamp.
Insert at time 0, hit at time 1: the re-inserted entry still carries
timestamp 0, and a get at time 3600001 (within one hour of the hit but
past one hour from the insertion) reports the entry absent — the claim,
which measures TTL age from the hit, predicts it present. -/
theorem C4_counterexample :
    ((emptyArtworkCache.set "k" "v" 0).get "k" 1).1 = some "v"
    ∧ ((emptyArtworkCache.set "k" "v" 0).get "k" 1).2.entries
        = [("k", CacheEntry.mk "v" 0)]
    ∧ ((((emptyArtworkCache.set "k" "v" 0).get "k" 1).2.get "k" 3600001).1 = none) :=
  ⟨rfl, rfl, rfl⟩

/-- C4 amended: a cache hit re-inserts the entry, resetting its LRU order
(it becomes the most recently used) but preserving its original timestamp,
so its TTL age stays measured from the last set; only set stores a fresh
timestamp. -/
theorem C4_amended (c : LRUCache String String) (k v2 : String)
    (e : CacheEntry String) (now n2 : Nat)
    (hfind : c.entries.find? (fun p => decide (p.1 = k)) = some (k, e))
    (hfresh : now - e.timestamp ≤ c.ttlMs) :
    (c.get k now).1 = some e.value
    ∧ (c.get k now).2.entries.getLast? = some (k, e)
    ∧ (c.get k now).2.entries.find? (fun p => decide (p.1 = k)) = some (k, e)
    ∧ (n2 - e.timestamp > c.ttlMs → ((c.get k now).2.get k n2).1 = none)
    ∧ (c.set k v2 now).entries.getLast? = some (k, CacheEntry.mk v2 now) := by
  have hget : c.get k now =
      (some e.value, ⟨cacheErase k c.entries ++ [(k, e)], c.maxSize, c.ttlMs⟩) := by
    simp [LRUCache.get, hfind, Nat.not_lt.mpr hfresh]
  refine ⟨by rw [hget], ?_, ?_, ?_, ?_⟩
  · rw [hget]; exact List.getLast?_concat _
  · rw [hget]; exact find?_cacheErase_append k e c.entries
  · intro hexp
    rw [hget]
    simp [LRUCache.get, find?_cacheErase_append k e c.entries, hexp]
  · simp [LRUCache.set, any_of_find?_eq_some hfind]

/-- Witness for C4_amended at a concrete cache: insert at 0, hit at 1. -/
theorem C4_amended_witness :
    ((emptyArtworkCache.set "k" "v" 0).entries.find?
        (fun p => decide (p.1 = "k")) = some ("k", CacheEntry.mk "v" 0))
    ∧ (((emptyArtworkCache.set "k" "v" 0).get "k" 1).1 = some "v"
        ∧ ((emptyArtworkCache.set "k" "v" 0).get "k" 1).2.entries.getLast?
            = some ("k", CacheEntry.mk "v" 0)
        ∧ ((emptyArtworkCache.set "k" "v" 0).get "k" 1).2.entries.find?
            (fun p => decide (p.1 = "k")) = some ("k", CacheEntry.mk "v" 0)
        ∧ (3600001 - (CacheEntry.mk "v" 0).timestamp > (emptyArtworkCache.set "k" "v" 0).ttlMs →
            ((((emptyArtworkCache.set "k" "v" 0).get "k" 1).2.get "k" 3600001).1 = none))
        ∧ ((emptyArtworkCache.set "k" "v" 0).set "k" "w" 1).entries.getLast?
            = some ("k", CacheEntry.mk "w" 1)) :=
  ⟨rfl, C4_amended (emptyArtworkCache.set "k" "v" 0) "k" "w" (CacheEntry.mk "v" 0) 1 3600001
    rfl (by decide)⟩

/-- C8: an entry inserted at time T is reported present by get and has at
any instant up to T plus the one-hour TTL, and reported absent and deleted
as a side effect of the lookup at any later instant; the entry is still
resident before the lookup (expiry is lazy: only a lookup of the key
removes it). -/
theorem C8_ttl_expiry (c : LRUCache String String) (k v : String) (T n1 n2 : Nat)
    (httl : c.ttlMs = CACHE_TTL_MS)
    (hfind : c.entries.find? (fun p => decide (p.1 = k)) = some (k, CacheEntry.mk v T))
    (h1 : T + CACHE_TTL_MS < n1)
    (h2 : n2 ≤ T + CACHE_TTL_MS) :
    (k, CacheEntry.mk v T) ∈ c.entries
    ∧ (c.get k n1).1 = none
    ∧ (∀ p ∈ (c.get k n1).2.entries, p.1 ≠ k)
    ∧ (c.has k n1).1 = false
    ∧ (∀ p ∈ (c.has k n1).2.entries, p.1 ≠ k)
    ∧ (c.get k n2).1 = some v
    ∧ (c.has k n2).1 = true := by
  have hexp : n1 - T > c.ttlMs := by rw [httl]; omega
  have hok : ¬ (n2 - T > c.ttlMs) := by rw [httl]; omega
  refine ⟨List.mem_of_find?_eq_some hfind, ?_, ?_, ?_, ?_, ?_, ?_⟩
  · simp [LRUCache.get, hfind, hexp]
  · simp only [LRUCache.get, hfind]
    rw [if_pos hexp]
    intro p hp
    rcases List.mem_filter.mp hp with ⟨_, hpk⟩
    simpa using hpk
  · simp [LRUCache.has, hfind, hexp]
  · simp only [LRUCache.has, hfind]
    rw [if_pos hexp]
    intro p hp
    rcases List.mem_filter.mp hp with ⟨_, hpk⟩
    simpa using hpk
  · simp [LRUCache.get, hfind, hok]
  · simp [LRUCache.has, hfind, hok]

/-- Witness for C8_ttl_expiry: insert at T = 5, read at 3600006 (absent)
and at 3600005 (present). -/
theorem C8_ttl_expiry_witness :
    ((emptyArtworkCache.set "k" "v" 5).entries.find?
        (fun p => decide (p.1 = "k")) = some ("k", CacheEntry.mk "v" 5))
    ∧ (("k", CacheEntry.mk "v" 5) ∈ (emptyArtworkCache.set "k" "v" 5).entries
        ∧ ((emptyArtworkCache.set "k" "v" 5).get "k" 3600006).1 = none
        ∧ (∀ p ∈ ((emptyArtworkCache.set "k" "v" 5).get "k" 3600006).2.entries, p.1 ≠ "k")
        ∧ ((emptyArtworkCache.set "k" "v" 5).has "k" 3600006).1 = false
        ∧ (∀ p ∈ ((emptyArtworkCache.set "k" "v" 5).has "k" 3600006).2.entries, p.1 ≠ "k")
        ∧ ((emptyArtworkCache.set "k" "v" 5).get "k" 3600005).1 = some "v"
        ∧ ((emptyArtworkCache.set "k" "v" 5).has "k" 3600005).1 = true) :=
  ⟨rfl, C8_ttl_expiry (emptyArtworkCache.set "k" "v" 5) "k" "v" 5 3600006 3600005
    rfl rfl (by decide) (by decide)⟩

/-- C9: when the ten-second deadline fires before the collaborator
responds, the promise settles once with the timeout error, the timeoutId
is nulled exactly once, every later event (in particular a late
collaborator callback) is discarded without settling the promise again,
and the fetch resolves to absent without touching the cache. -/
theorem C9_timeout_discards_late_response (c : LRUCache String String)
    (k : String) (now : Nat) (rest : List FetchEvent)
    (hk : k ≠ "")
    (hmiss : c.entries.find? (fun p => decide (p.1 = k)) = none) :
    (runFetch (FetchEvent.timeout :: rest)).settled
        = some (FetchResult.err "Image fetch timeout")
    ∧ (runFetch (FetchEvent.timeout :: rest)).settleCount = 1
    ∧ (runFetch (FetchEvent.timeout :: rest)).disarmCount = 1
    ∧ (runFetch (FetchEvent.timeout :: rest)).timerArmed = false
    ∧ fetchArtwork c (some k) now true (FetchEvent.timeout :: rest) = (none, c) := by
  have hrun : runFetch (FetchEvent.timeout :: rest)
      = ⟨false, some (FetchResult.err "Image fetch timeout"), 1, 1⟩ := by
    unfold runFetch
    rw [List.foldl_cons]
    exact foldl_fetchStep_disarmed rest _ rfl
  refine ⟨by rw [hrun], by rw [hrun], by rw [hrun], by rw [hrun], ?_⟩
  simp [fetchArtwork, hk, LRUCache.get, hmiss, fetchArtworkMiss, hrun]

/-- Witness for C9: an empty cache, the key img2, and one late successful
collaborator response after the timeout. -/
theorem C9_timeout_discards_late_response_witness :
    ("img2" ≠ ""
      ∧ emptyArtworkCache.entries.find? (fun p => decide (p.1 = "img2")) = none)
    ∧ ((runFetch [FetchEvent.timeout, FetchEvent.response none none "QUJD"]).settled
          = some (FetchResult.err "Image fetch timeout")
        ∧ (runFetch [FetchEvent.timeout, FetchEvent.response none none "QUJD"]).settleCount = 1
        ∧ (runFetch [FetchEvent.timeout, FetchEvent.response none none "QUJD"]).disarmCount = 1
        ∧ (runFetch [FetchEvent.timeout, FetchEvent.response none none "QUJD"]).timerArmed = false
        ∧ fetchArtwork emptyArtworkCache (some "img2") 0 true
            [FetchEvent.timeout, FetchEvent.response none none "QUJD"]
            = (none, emptyArtworkCache)) :=
  ⟨⟨by decide, rfl⟩,
    C9_timeout_discards_late_response emptyArtworkCache "img2" 0
      [FetchEvent.response none none "QUJD"] (by decide) rfl⟩

/-! Helper lemmas about the reconciler. -/

/-- Upserting a list of non-null zone records never raises and folds the
Map.set operation over the list. -/
theorem upsertZones_map_some (zs : List Zone) (m : List Zone) :
    upsertZones (zs.map some) m = (zs.foldl (fun acc z => zsSet z acc) m, none) := by
  induction zs generalizing m with
  | nil => rfl
  | cons z t ih => simp [upsertZones, ih]

/-- Upserting a list of non-null output records never raises and folds the
Map.set operation over the list. -/
theorem upsertOutputs_map_some (outs : List Output) (m : List Output) :
    upsertOutputs (outs.map some) m = (outs.foldl (fun acc o => osSet o acc) m, none) := by
  induction outs generalizing m with
  | nil => rfl
  | cons o t ih => simp [upsertOutputs, ih]

/-- extractAndEmitNowPlaying always emits a now_playing message. -/
theorem isNowPlayingMsg_extract (fa : String → Option String) (z : Zone) :
    isNowPlayingMsg (extractAndEmitNowPlaying fa z) = true := by
  unfold extractAndEmitNowPlaying
  cases z.now_playing with
  | none => rfl
  | some np => dsimp only; split <;> rfl

/-- extractAndEmitNowPlaying never emits a zone_list message. -/
theorem isZoneListMsg_extract (fa : String → Option String) (z : Zone) :
    isZoneListMsg (extractAndEmitNowPlaying fa z) = false := by
  unfold extractAndEmitNowPlaying
  cases z.now_playing with
  | none => rfl
  | some np => dsimp only; split <;> rfl

/-- emitCurrentZoneList never contributes now_playing messages. -/
theorem filter_isNowPlaying_emit (s : TState) :
    (emitCurrentZoneList s).filter isNowPlayingMsg = [] := by
  unfold emitCurrentZoneList
  split <;> simp [isNowPlayingMsg]

/-- The whole now_playing batch survives the now_playing filter. -/
theorem filter_isNowPlaying_np (fa : String → Option String) (l : List Zone) :
    (l.map (extractAndEmitNowPlaying fa)).filter isNowPlayingMsg
      = l.map (extractAndEmitNowPlaying fa) := by
  apply List.filter_eq_self.mpr
  intro m hm
  rcases List.mem_map.mp hm with ⟨z, _, rfl⟩
  exact isNowPlayingMsg_extract fa z

/-- The now_playing batch contributes no zone_list messages. -/
theorem filter_isZoneList_np (fa : String → Option String) (l : List Zone) :
    (l.map (extractAndEmitNowPlaying fa)).filter isZoneListMsg = [] := by
  induction l with
  | nil => rfl
  | cons z t ih => simp [List.filter_cons, isZoneListMsg_extract, ih]

/-- emitCurrentZoneList contributes exactly one zone_list message when the
snapshot is non-empty and none otherwise. -/
theorem length_filter_isZoneList_emit (s : TState) :
    ((emitCurrentZoneList s).filter isZoneListMsg).length
      = if currentZoneList s = [] then 0 else 1 := by
  unfold emitCurrentZoneList
  by_cases h : currentZoneList s = []
  · simp [h]
  · have hpos : (currentZoneList s).length > 0 := List.length_pos.mpr h
    simp [h, hpos, List.filter_cons, isZoneListMsg]

/-- Map.set never empties the zone map. -/
theorem zsSet_ne_nil (z : Zone) (m : List Zone) : zsSet z m ≠ [] := by
  cases m with
  | nil => simp [zsSet]
  | cons w rest => unfold zsSet; split <;> simp

/-- Folding Map.set over a burst keeps a non-empty zone map non-empty. -/
theorem foldl_zsSet_ne_nil_of_ne (zs : List Zone) (m : List Zone) (h : m ≠ []) :
    zs.foldl (fun acc z => zsSet z acc) m ≠ [] := by
  induction zs generalizing m with
  | nil => exact h
  | cons z t ih => exact ih (zsSet z m) (zsSet_ne_nil z m)

/-- A non-empty upsert burst leaves the zone map non-empty. -/
theorem foldl_zsSet_ne_nil (zs : List Zone) (m : List Zone) (h : zs ≠ []) :
    zs.foldl (fun acc z => zsSet z acc) m ≠ [] := by
  cases zs with
  | nil => exact absurd rfl h
  | cons z t =>
    rw [List.foldl_cons]
    exact foldl_zsSet_ne_nil_of_ne t (zsSet z m) (zsSet_ne_nil z m)

/-- A state with a non-empty zone map has a non-empty snapshot. -/
theorem currentZoneList_ne_nil (s : TState) (h : s.zones ≠ []) :
    currentZoneList s ≠ [] := by
  unfold currentZoneList
  intro hc
  rcases List.append_eq_nil.mp hc with ⟨h1, _⟩
  exact h (List.map_eq_nil_iff.mp h1)

/-- The zone_id of the snapshot entry of a zone is the zone_id of the
zone. -/
@[simp] theorem zoneEntryOf_zone_id (z : Zone) : (zoneEntryOf z).zone_id = z.zone_id := rfl

/-- C6: for every state of the zone and output maps, the snapshot id set
is exactly the zone map ids together with the prefixed ids of outputs not
referenced by any zone's output list; an output referenced by a zone never
appears in the synthetic set of the same emission; and synthetic entries
never carry now_playing.  Confirmed. -/
theorem C6_zone_list_id_set (s : TState) :
    (∀ id : String,
        id ∈ (currentZoneList s).map (fun e => e.zone_id)
          ↔ (id ∈ s.zones.map (fun z => z.zone_id)
              ∨ ∃ o, o ∈ s.outputs ∧ o.output_id ∉ referencedIds s
                  ∧ id = "output:" ++ o.output_id))
    ∧ (∀ o, o ∈ s.outputs → o.output_id ∈ referencedIds s →
        o.output_id ∉ (s.outputs.filter
          (fun o2 => decide (o2.output_id ∉ referencedIds s))).map
            (fun o2 => o2.output_id))
    ∧ (∀ e ∈ syntheticEntries s, e.now_playing = none) := by
  refine ⟨?_, ?_, ?_⟩
  · intro id
    simp only [currentZoneList, syntheticEntries, List.map_append, List.mem_append,
      List.map_map, List.mem_map, Function.comp, zoneEntryOf_zone_id, List.mem_filter,
      decide_eq_true_iff]
    constructor
    · rintro (⟨z, hz, rfl⟩ | ⟨o, ⟨ho, href⟩, rfl⟩)
      · exact Or.inl ⟨z, hz, rfl⟩
      · exact Or.inr ⟨o, ho, href, rfl⟩
    · rintro (⟨z, hz, rfl⟩ | ⟨o, ho, href, rfl⟩)
      · exact Or.inl ⟨z, hz, rfl⟩
      · exact Or.inr ⟨o, ⟨ho, href⟩, rfl⟩
  · intro o ho href hmem
    rcases List.mem_map.mp hmem with ⟨o2, h2, heq⟩
    rcases List.mem_filter.mp h2 with ⟨_, hdec⟩
    exact (decide_eq_true_iff.mp hdec) (heq ▸ href)
  · intro e he
    rcases List.mem_map.mp he with ⟨o, _, rfl⟩
    rfl

/-- C1 counterexample: a zone burst whose single zone transitions to
stopped produces no now-playing message at all — the claim requires an
empty now-playing message (empty title, artist, album, state stopped) for
that zone id. -/
theorem C1_counterexample :
    ((handleZonesUpdate (fun _ => none)
        (ZonesData.mk (some [some (Zone.mk "z1" "Room" [] none (some "stopped"))])
          none none none)
        (TState.mk [] [])).2.1
      = [Msg.zoneList [ZoneInfo.mk "z1" "Room" "stopped" none]])
    ∧ (Msg.nowPlaying "z1" "" "" "" (some "stopped") none) ∉
        ((handleZonesUpdate (fun _ => none)
          (ZonesData.mk (some [some (Zone.mk "z1" "Room" [] none (some "stopped"))])
            none none none)
          (TState.mk [] [])).2.1) := by
  refine ⟨rfl, ?_⟩
  intro h
  simp [handleZonesUpdate, handleZonesUpdateImpl, seekOnlyGuard, effectiveZones,
    upsertZones, zsSet, emitCurrentZoneList, currentZoneList, syntheticEntries,
    referencedIds, isActiveZone] at h

/-- C1 amended: after a zone upsert burst the reconciler emits one
now-playing message per zone of the burst whose playback_state is playing
or paused — and only for those zones; among them, a zone lacking
now-playing data gets the empty message (empty title, artist, album, state
stopped) for its zone id.  A zone of the burst transitioning to stopped
gets no now-playing message. -/
theorem C1_amended (fa : String → Option String) (zs : List Zone) (s : TState) :
    ((handleZonesUpdate fa (ZonesData.mk (some (zs.map some)) none none none) s).2.1.filter
        isNowPlayingMsg
      = (zs.filter isActiveZone).map (extractAndEmitNowPlaying fa))
    ∧ (∀ z ∈ zs, z.now_playing = none →
        extractAndEmitNowPlaying fa z
          = Msg.nowPlaying z.zone_id "" "" "" (some "stopped") none) := by
  constructor
  · by_cases hzs : zs = []
    · subst hzs
      rfl
    · have hlen : (zs.map some).length ≠ 0 := by
        simpa using fun h => hzs (List.eq_nil_of_length_eq_zero h)
      simp only [handleZonesUpdate, handleZonesUpdateImpl, seekOnlyGuard]
      rw [if_neg (by simp)]
      simp only [effectiveZones]
      rw [if_neg hlen]
      rw [upsertZones_map_some]
      simp only [List.filterMap_map]
      have hfm : List.filterMap (id ∘ some) zs = zs := by
        have hcomp : (id ∘ some : Zone → Option Zone) = some := rfl
        rw [hcomp, List.filterMap_some]
      rw [hfm]
      simp [List.filter_append, filter_isNowPlaying_emit, filter_isNowPlaying_np]
  · intro z _ h
    simp [extractAndEmitNowPlaying, h]

/-- C5 counterexample: a malformed output burst (a null element in the
outputs list) raises inside handleOutputsUpdate and the error propagates —
there is no try/catch at the top of the output event-handling call, so the
claim that every burst's processing error is caught fails for output
bursts. -/
theorem C5_counterexample :
    (handleOutputsUpdate (OutputsData.mk (some [none]) none none)
        (TState.mk [] [])).2.2
      = some "TypeError: null output in outputs list" := rfl

/-- C5 amended: any exception raised while processing a zone burst is
caught at the top of handleZonesUpdate and never propagates; the output
handler has no such catch, but it raises only on malformed (null-entry)
bursts — processing a well-formed zone or output burst never raises even
before the catch. -/
theorem C5_amended :
    (∀ (fa : String → Option String) (d : ZonesData) (s : TState),
        (handleZonesUpdate fa d s).2.2 = none)
    ∧ (∀ (fa : String → Option String) (zs : List Zone) (rem : Option (List String))
        (sk : Option (List Unit)) (s : TState),
        (handleZonesUpdateImpl fa (ZonesData.mk (some (zs.map some)) none rem sk) s).2.2
          = none)
    ∧ (∀ (outs : List Output) (orem : Option (List String)) (s : TState),
        (handleOutputsUpdate (OutputsData.mk (some (outs.map some)) none orem) s).2.2
          = none) := by
  refine ⟨fun fa d s => rfl, ?_, ?_⟩
  · intro fa zs rem sk s
    simp only [handleZonesUpdateImpl, seekOnlyGuard]
    rw [if_neg (by simp)]
    simp only [effectiveZones]
    by_cases hlen : (zs.map some).length = 0
    · rw [if_pos hlen]
    · rw [if_neg hlen, upsertZones_map_some]
  · intro outs orem s
    simp only [handleOutputsUpdate, effectiveOutputs]
    rw [upsertOutputs_map_some]

/-- C3 counterexample: a single zone burst carrying both a removal list
and an upsert list is one mutating call whose resulting list is non-empty,
yet it produces two zone-list emissions (one after the removals, one after
the upserts), not exactly one. -/
theorem C3_counterexample :
    ((((handleZonesUpdate (fun _ => none)
        (ZonesData.mk (some [some (Zone.mk "z1" "C" [] none (some "stopped"))])
          none (some ["z0"]) none)
        (TState.mk [Zone.mk "z0" "A" [] none (some "stopped"),
                    Zone.mk "zA" "B" [] none (some "stopped")] [])).2.1).filter
      isZoneListMsg).length = 2)
    ∧ currentZoneList
        (handleZonesUpdate (fun _ => none)
          (ZonesData.mk (some [some (Zone.mk "z1" "C" [] none (some "stopped"))])
            none (some ["z0"]) none)
          (TState.mk [Zone.mk "z0" "A" [] none (some "stopped"),
                      Zone.mk "zA" "B" [] none (some "stopped")] [])).1 ≠ [] := by
  exact ⟨rfl, by decide⟩

/-- C3 amended: an output burst emits the zone list exactly once (when the
resulting list is non-empty); a zone burst emits once per section that
runs — once after a non-empty removal list (when the post-removal list is
non-empty) and once after a non-empty upsert list — so a burst carrying
both removals and upserts produces two zone-list emissions, otherwise at
most one. -/
theorem C3_amended (fa : String → Option String) (s : TState) (zs : List Zone)
    (rem : List String) (outs : List Output) (orem : List String) :
    (((handleZonesUpdate fa (ZonesData.mk (some (zs.map some)) none (some rem) none)
          s).2.1.filter isZoneListMsg).length
      = (if rem = [] ∨ currentZoneList
            (TState.mk (rem.foldl (fun m zid => zsDelete zid m) s.zones) s.outputs) = []
         then 0 else 1)
        + (if zs = [] then 0 else 1))
    ∧ (((handleOutputsUpdate (OutputsData.mk (some (outs.map some)) none (some orem))
          s).2.1.filter isZoneListMsg).length
      = if currentZoneList
            (handleOutputsUpdate (OutputsData.mk (some (outs.map some)) none (some orem))
              s).1 = []
        then 0 else 1) := by
  constructor
  · by_cases hrem : rem = []
    · by_cases hzs : zs = []
      · subst hrem
        subst hzs
        simp [handleZonesUpdate, handleZonesUpdateImpl, seekOnlyGuard, effectiveZones]
      · subst hrem
        have hne : currentZoneList
            (TState.mk (zs.foldl (fun acc z => zsSet z acc) s.zones) s.outputs) ≠ [] :=
          currentZoneList_ne_nil _ (foldl_zsSet_ne_nil zs s.zones hzs)
        simp [handleZonesUpdate, handleZonesUpdateImpl, seekOnlyGuard, effectiveZones,
          upsertZones_map_some, List.filter_append, filter_isZoneList_np,
          length_filter_isZoneList_emit, hzs, hne]
    · have hrlen : 0 < rem.length := List.length_pos.mpr hrem
      by_cases hzs : zs = []
      · subst hzs
        simp [handleZonesUpdate, handleZonesUpdateImpl, seekOnlyGuard, effectiveZones,
          length_filter_isZoneList_emit, hrem, hrlen]
      · have hne : currentZoneList
            (TState.mk
              (zs.foldl (fun acc z => zsSet z acc)
                (rem.foldl (fun m zid => zsDelete zid m) s.zones))
              s.outputs) ≠ [] :=
          currentZoneList_ne_nil _ (foldl_zsSet_ne_nil zs _ hzs)
        simp [handleZonesUpdate, handleZonesUpdateImpl, seekOnlyGuard, effectiveZones,
          upsertZones_map_some, List.filter_append, filter_isZoneList_np,
          length_filter_isZoneList_emit, hrem, hrlen, hzs, hne]
  · have hrun : handleOutputsUpdate (OutputsData.mk (some (outs.map some)) none (some orem)) s
        = (TState.mk s.zones
            (outs.foldl (fun acc o => osSet o acc)
              (if orem.length > 0 then orem.foldl (fun m oid => osDelete oid m) s.outputs
               else s.outputs)),
           emitCurrentZoneList (TState.mk s.zones
            (outs.foldl (fun acc o => osSet o acc)
              (if orem.length > 0 then orem.foldl (fun m oid => osDelete oid m) s.outputs
               else s.outputs))), none) := by
      simp only [handleOutputsUpdate, effectiveOutputs]
      rw [upsertOutputs_map_some]
    rw [hrun]
    exact length_filter_isZoneList_emit _

/-! Helper lemmas about the LRU cache for the eviction claim. -/

/-- Erasing a key that no entry carries leaves the list unchanged. -/
theorem cacheErase_eq_self {K V : Type} [DecidableEq K] {k : K}
    {l : List (K × CacheEntry V)} (h : ∀ p ∈ l, p.1 ≠ k) : cacheErase k l = l := by
  apply List.filter_eq_self.mpr
  intro p hp
  simpa using h p hp

/-- Erasing only removes entries. -/
theorem mem_of_mem_cacheErase {K V : Type} [DecidableEq K] {k : K}
    {l : List (K × CacheEntry V)} {p : K × CacheEntry V}
    (h : p ∈ cacheErase k l) : p ∈ l := (List.mem_filter.mp h).1

/-- With pairwise distinct keys, looking up the key of a resident entry
finds exactly that entry. -/
theorem find?_of_mem_nodup {K V : Type} [DecidableEq K]
    {l : List (K × CacheEntry V)} {k : K} {e : CacheEntry V}
    (hnd : (l.map Prod.fst).Nodup) (hm : (k, e) ∈ l) :
    l.find? (fun p => decide (p.1 = k)) = some (k, e) := by
  induction l with
  | nil => cases hm
  | cons a t ih =>
    rw [List.map_cons, List.nodup_cons] at hnd
    rcases List.mem_cons.mp hm with heq | hmem
    · rw [← heq]
      exact List.find?_cons_of_pos t (by simp)
    · have hak : ¬ (a.1 = k) := by
        intro hh
        apply hnd.1
        rw [hh]
        exact List.mem_map.mpr ⟨(k, e), hmem, rfl⟩
      rw [List.find?_cons_of_neg t (by simpa using hak)]
      exact ih hnd.2 hmem

/-- With pairwise distinct keys, erasing a resident key removes exactly
one entry. -/
theorem length_cacheErase_of_mem_nodup {K V : Type} [DecidableEq K]
    {l : List (K × CacheEntry V)} {k : K} {e : CacheEntry V}
    (hnd : (l.map Prod.fst).Nodup) (hm : (k, e) ∈ l) :
    (cacheErase k l).length + 1 = l.length := by
  induction l with
  | nil => cases hm
  | cons a t ih =>
    rw [List.map_cons, List.nodup_cons] at hnd
    rcases List.mem_cons.mp hm with heq | hmem
    · subst heq
      unfold cacheErase
      rw [List.filter_cons, if_neg (by simp)]
      have ht : ∀ p ∈ t, (!(decide (p.1 = k))) = true := by
        intro p hp
        have hpk : p.1 ≠ k := by
          intro hh
          exact hnd.1 (by rw [← hh]; exact List.mem_map.mpr ⟨p, hp, rfl⟩)
        simpa using hpk
      rw [List.filter_eq_self.mpr ht]
      simp
    · have hak : a.1 ≠ k := by
        intro hh
        exact hnd.1 (hh ▸ List.mem_map.mpr ⟨(k, e), hmem, rfl⟩)
      unfold cacheErase at *
      rw [List.filter_cons, if_pos (by simpa using hak)]
      simp only [List.length_cons]
      have := ih hnd.2 hmem
      omega

/-- Filtering out the matched elements of a satisfiable predicate strictly
shrinks the list. -/
theorem length_filter_not_lt_of_any {α : Type} (q : α → Bool) (l : List α)
    (h : l.any q = true) :
    (l.filter (fun x => !(q x))).length < l.length := by
  induction l with
  | nil => simp at h
  | cons a t ih =>
    rw [List.filter_cons]
    by_cases hq : q a = true
    · rw [if_neg (by simp [hq])]
      exact Nat.lt_succ_of_le (List.length_filter_le _ t)
    · have hq2 : q a = false := by simpa using hq
      rw [List.any_cons, hq2, Bool.false_or] at h
      rw [if_pos (by simp [hq2])]
      simp only [List.length_cons]
      exact Nat.succ_lt_succ (ih h)

/-- Every cache operation preserves the configured capacity. -/
theorem applyOp_maxSize {K V : Type} [DecidableEq K] (c : LRUCache K V)
    (op : CacheOp K V) : (applyOp c op).maxSize = c.maxSize := by
  cases op with
  | get k now =>
    simp only [applyOp, LRUCache.get]
    cases c.entries.find? (fun p => decide (p.1 = k)) with
    | none => rfl
    | some p =>
      dsimp only
      split <;> rfl
  | set k v now => rfl
  | has k now =>
    simp only [applyOp, LRUCache.has]
    cases c.entries.find? (fun p => decide (p.1 = k)) with
    | none => rfl
    | some p =>
      dsimp only
      split <;> rfl
  | clear => rfl

/-- Every cache operation preserves the capacity bound on the number of
entries (for a positive capacity). -/
theorem applyOp_size_le {K V : Type} [DecidableEq K] (c : LRUCache K V)
    (op : CacheOp K V) (hmax : 1 ≤ c.maxSize) (h : c.size ≤ c.maxSize) :
    (applyOp c op).size ≤ c.maxSize := by
  cases op with
  | get k now =>
    simp only [applyOp, LRUCache.get]
    cases hf : c.entries.find? (fun p => decide (p.1 = k)) with
    | none => exact h
    | some p =>
      dsimp only
      split
      · simp only [LRUCache.size, cacheErase] at *
        exact le_trans (List.length_filter_le _ _) h
      · have hpred : (fun q : K × CacheEntry V => decide (q.1 = k)) p = true :=
          @List.find?_some (K × CacheEntry V) (fun q => decide (q.1 = k)) p c.entries hf
        have hany : c.entries.any (fun q => decide (q.1 = k)) = true :=
          List.any_eq_true.mpr ⟨p, List.mem_of_find?_eq_some hf, hpred⟩
        have hlt := length_filter_not_lt_of_any (fun q => decide (q.1 = k)) c.entries hany
        simp only [LRUCache.size, cacheErase, List.length_append, List.length_cons,
          List.length_nil] at *
        omega
  | set k v now =>
    simp only [applyOp, LRUCache.set, LRUCache.size] at *
    by_cases ha : c.entries.any (fun p => decide (p.1 = k)) = true
    · have hlt := length_filter_not_lt_of_any (fun p => decide (p.1 = k)) c.entries ha
      rw [if_pos ha]
      simp only [cacheErase, List.length_append, List.length_cons, List.length_nil] at *
      omega
    · rw [if_neg ha]
      by_cases hl : c.entries.length ≥ c.maxSize
      · rw [if_pos hl]
        have heq : c.entries.length = c.maxSize := le_antisymm h hl
        simp only [List.length_append, List.length_tail, List.length_cons, List.length_nil]
        omega
      · rw [if_neg hl]
        simp only [List.length_append, List.length_cons, List.length_nil]
        omega
  | has k now =>
    simp only [applyOp, LRUCache.has]
    cases hf : c.entries.find? (fun p => decide (p.1 = k)) with
    | none => exact h
    | some p =>
      dsimp only
      split
      · simp only [LRUCache.size, cacheErase] at *
        exact le_trans (List.length_filter_le _ _) h
      · exact h
  | clear =>
    simp only [applyOp, LRUCache.clear, LRUCache.size, List.length_nil]
    exact Nat.zero_le _

/-- Any run of cache operations preserves the capacity bound and the
configured capacity. -/
theorem runOps_size_le {K V : Type} [DecidableEq K] (ops : List (CacheOp K V))
    (c : LRUCache K V) (hmax : 1 ≤ c.maxSize) (h : c.size ≤ c.maxSize) :
    (runOps c ops).size ≤ c.maxSize ∧ (runOps c ops).maxSize = c.maxSize := by
  induction ops generalizing c with
  | nil => exact ⟨h, rfl⟩
  | cons op t ih =>
    have h1 := applyOp_size_le c op hmax h
    have h2 := applyOp_maxSize c op
    obtain ⟨ha, hb⟩ := ih (applyOp c op) (by rw [h2]; exact hmax) (by rw [h2]; exact h1)
    constructor
    · show ((op :: t).foldl applyOp c).size ≤ c.maxSize
      rw [List.foldl_cons]
      exact le_trans ha (le_of_eq h2)
    · show ((op :: t).foldl applyOp c).maxSize = c.maxSize
      rw [List.foldl_cons]
      exact hb.trans h2

/-- C7: on a full cache (100 entries, capacity 100) a set with a new key
evicts exactly the front (least recently used) entry before appending the
new one, keeping the size at 100; a get of a resident fresh key
immediately before such an eviction-triggering set moves it to the back,
so that key survives the eviction; and the cache built by any sequence of
operations from the empty artwork cache never exceeds 100 entries. -/
theorem C7_lru_eviction (c : LRUCache Nat Nat) (knew v v2 now : Nat) (kpro : Nat)
    (ep : CacheEntry Nat)
    (hmax : c.maxSize = MAX_CACHE_SIZE)
    (hfull : c.entries.length = MAX_CACHE_SIZE)
    (hnodup : (c.entries.map Prod.fst).Nodup)
    (hnew : ∀ p ∈ c.entries, p.1 ≠ knew)
    (hpro : (kpro, ep) ∈ c.entries)
    (hfresh : now - ep.timestamp ≤ c.ttlMs) :
    ((c.set knew v now).entries.map Prod.fst
        = (c.entries.map Prod.fst).tail ++ [knew])
    ∧ (c.set knew v now).entries.length = MAX_CACHE_SIZE
    ∧ kpro ∈ (((c.get kpro now).2.set knew v2 now).entries.map Prod.fst)
    ∧ (∀ ops : List (CacheOp Nat Nat),
        (runOps (LRUCache.mk [] MAX_CACHE_SIZE CACHE_TTL_MS) ops).size
          ≤ MAX_CACHE_SIZE) := by
  have hany : c.entries.any (fun p => decide (p.1 = knew)) = false :=
    List.any_eq_false.mpr (fun p hp => by simpa using hnew p hp)
  have hge : c.entries.length ≥ c.maxSize := by rw [hfull, hmax]
  have hset : (c.set knew v now).entries
      = c.entries.tail ++ [(knew, CacheEntry.mk v now)] := by
    simp only [LRUCache.set]
    rw [if_neg (by simp [hany]), if_pos hge]
  refine ⟨?_, ?_, ?_, ?_⟩
  · rw [hset, List.map_append, List.map_tail]
    rfl
  · rw [hset, List.length_append, List.length_tail, hfull]
    simp [MAX_CACHE_SIZE]
  · have hfind : c.entries.find? (fun p => decide (p.1 = kpro)) = some (kpro, ep) :=
      find?_of_mem_nodup hnodup hpro
    have hget : (c.get kpro now).2
        = LRUCache.mk (cacheErase kpro c.entries ++ [(kpro, ep)]) c.maxSize c.ttlMs := by
      simp only [LRUCache.get, hfind]
      rw [if_neg (Nat.not_lt.mpr hfresh)]
    have hkne : kpro ≠ knew := hnew (kpro, ep) hpro
    have herase1 : (cacheErase kpro c.entries).length + 1 = MAX_CACHE_SIZE := by
      rw [← hfull]
      exact length_cacheErase_of_mem_nodup hnodup hpro
    have hne : cacheErase kpro c.entries ≠ [] := by
      intro h0
      rw [h0] at herase1
      simp [MAX_CACHE_SIZE] at herase1
    have hany2 : ((c.get kpro now).2.entries.any (fun p => decide (p.1 = knew))) = false := by
      rw [hget]
      apply List.any_eq_false.mpr
      intro p hp
      rcases List.mem_append.mp hp with hp1 | hp2
      · simpa using hnew p (mem_of_mem_cacheErase hp1)
      · have hpe : p = (kpro, ep) := by simpa using hp2
        simp [hpe, hkne]
    have hlen2 : (c.get kpro now).2.entries.length = MAX_CACHE_SIZE := by
      rw [hget]
      simp only [List.length_append, List.length_cons, List.length_nil]
      omega
    have hge2 : (c.get kpro now).2.entries.length ≥ (c.get kpro now).2.maxSize := by
      rw [hlen2, hget, hmax]
    have hset2 : (((c.get kpro now).2).set knew v2 now).entries
        = (c.get kpro now).2.entries.tail ++ [(knew, CacheEntry.mk v2 now)] := by
      simp only [LRUCache.set]
      rw [if_neg (by simp [hany2]), if_pos hge2]
    rw [hset2, hget]
    dsimp only
    rw [List.tail_append_of_ne_nil hne]
    simp
  · intro ops
    have h0 : (LRUCache.mk ([] : List (Nat × CacheEntry Nat)) MAX_CACHE_SIZE
        CACHE_TTL_MS).size ≤ MAX_CACHE_SIZE := Nat.zero_le _
    exact (runOps_size_le ops (LRUCache.mk [] MAX_CACHE_SIZE CACHE_TTL_MS)
      (by simp [MAX_CACHE_SIZE]) h0).1

/-- Witness for C7_lru_eviction at a concrete full cache of one hundred
entries with keys 0 to 99: inserting key 100 evicts key 0 (the front),
and a get of key 5 right before the insertion protects key 5. -/
theorem C7_lru_eviction_witness :
    ((LRUCache.mk ((List.range 100).map (fun i => (i, CacheEntry.mk i 0)))
        MAX_CACHE_SIZE CACHE_TTL_MS).entries.length = MAX_CACHE_SIZE)
    ∧ (((LRUCache.mk ((List.range 100).map (fun i => (i, CacheEntry.mk i 0)))
        MAX_CACHE_SIZE CACHE_TTL_MS).set 100 7 0).entries.map Prod.fst
        = (((LRUCache.mk ((List.range 100).map (fun i => (i, CacheEntry.mk i 0)))
            MAX_CACHE_SIZE CACHE_TTL_MS).entries.map Prod.fst).tail ++ [100]))
    ∧ (5 ∈ ((((LRUCache.mk ((List.range 100).map (fun i => (i, CacheEntry.mk i 0)))
          MAX_CACHE_SIZE CACHE_TTL_MS).get 5 0).2.set 100 8 0).entries.map Prod.fst)) := by
  have h := C7_lru_eviction
    (LRUCache.mk ((List.range 100).map (fun i => (i, CacheEntry.mk i 0)))
      MAX_CACHE_SIZE CACHE_TTL_MS)
    100 7 8 0 5 (CacheEntry.mk 5 0)
    rfl
    (by simp [MAX_CACHE_SIZE])
    (by simpa [List.map_map, Function.comp_def] using List.nodup_range 100)
    (by decide)
    (by decide)
    (by decide)
  exact ⟨by simp [MAX_CACHE_SIZE], h.1, h.2.2.1⟩
